import Mathlib

/-!
hostlab v101: the `eghost` example HTTP server

A shallow embedding of `src/hostlab/v101/v101/main.cpp`.

* The compile-time constants, `static_page_class` and `static_response_class`
  are translated literally.
* The three Boost.Beast calls the program makes on the shared response
  (`keep_alive(bool)`, `prepare_payload()`, `set(name, value)`) are embedded
  with the semantics of `boost::beast::http::basic_fields` / `message`:
  field names compare ASCII case-insensitively, `set` removes every field of
  that name and appends the new one in serialization order.
* The coroutines `session::read_write`, `session::run`, `server::accept`,
  `server::run` and `main` become total functions over a finite script of
  I/O completions, returning the trace of observable events together with the
  way the coroutine ended (suspended in `async_accept` once the script is
  exhausted, or an exception).
-/

set_option autoImplicit false

namespace eghost

/-! ## `eghost::host_config` -/

namespace host_config

def name : String := "eghost"
def url_prefix : String := "https://"
def url_host : String := "www.boost.org"

end host_config

/-! ## `static_page_class` -/

/-- The class `static_page_class`: two private members and the public `html`. -/
structure static_page_class where
  __url_prefix : String
  __url_host : String
  html : String
  deriving DecidableEq, Repr

/-- The constructor `static_page_class(url_prefix__, url_host__)`. -/
def static_page_class.ctor (url_prefix__ url_host__ : String) : static_page_class :=
  { __url_prefix := url_prefix__
    __url_host := url_host__
    html :=
      "<!DOCTYPE html>\n" ++
      "<html>\n" ++
      "<head>\n" ++
      "<title>" ++ host_config.name ++ "</title>\n" ++
      "<body>\n" ++
      "<center>\n" ++
      "<h1>" ++ host_config.name ++ "</h1>\n" ++
      "<p>Example http web server.</p>\n" ++
      "<hr />\n" ++
      "<p>\n" ++
      "<a href=\"" ++ url_prefix__ ++ url_host__ ++ "\">" ++ url_host__ ++ "</a>\n" ++
      "</p>\n" ++
      "</center>\n" ++
      "</body>\n" ++
      "</html>\n" }

/-! ## HTTP fields (`boost::beast::http::basic_fields`) -/

/-- One header field: name and value. -/
structure Field where
  name : String
  value : String
  deriving DecidableEq, Repr

/-- ASCII lower-casing of one character. -/
def ascii_tolower (c : Char) : Char :=
  if 65 ≤ c.toNat ∧ c.toNat ≤ 90 then Char.ofNat (c.toNat + 32) else c

/-- The comparison `beast::iequals` on character sequences. -/
def iequals_chars (a b : List Char) : Bool :=
  a.map ascii_tolower == b.map ascii_tolower

/-- The comparison `beast::iequals`: equality up to ASCII case. -/
def iequals (a b : String) : Bool :=
  iequals_chars a.data b.data

/-- The header container, in serialization order (`basic_fields::list_`). -/
abbrev Fields := List Field

/-- The call `basic_fields::erase(name)`: removes every field of that name. -/
def Fields.erase (fs : Fields) (name : String) : Fields :=
  fs.filter (fun f => !iequals f.name name)

/-- The call `basic_fields::set(name, value)`: removes every field of that name,
then appends the new field at the end of the serialization order. -/
def Fields.set (fs : Fields) (name value : String) : Fields :=
  fs.erase name ++ [{ name := name, value := value }]

/-- The call `basic_fields::find(name)`: the first field of that name. -/
def Fields.find (fs : Fields) (name : String) : Option Field :=
  List.find? (fun f => iequals f.name name) fs

/-- The lookup `basic_fields::operator[]`: the value of the first field of that
name, or the empty string. -/
def Fields.at (fs : Fields) (name : String) : String :=
  match fs.find name with
  | some f => f.value
  | none => ""

/-- The call `basic_fields::count(name)`. -/
def Fields.count (fs : Fields) (name : String) : Nat :=
  List.countP (fun f => iequals f.name name) fs

/-! ### Token lists (`http::token_list`, used by the keep-alive logic) -/

/-- The predicate `detail::is_token_char`: the `tchar` set of RFC 7230. -/
def is_token_char (c : Char) : Bool :=
  let n := c.toNat
  (48 ≤ n && n ≤ 57) || (65 ≤ n && n ≤ 90) || (97 ≤ n && n ≤ 122) ||
  [33, 35, 36, 37, 38, 39, 42, 43, 45, 46, 94, 95, 96, 124, 126].contains n

/-- The iteration of `http::token_list`:
`*( "," OWS ) token *( OWS "," [ OWS token ] )`.  `need_comma` is the iterator's
flag of that name; `cur` is the token being read (reversed), if any.  Iteration
ends at the first character the grammar does not allow. -/
def token_list_scan : Bool → Option (List Char) → List Char → List (List Char)
  | _, none, [] => []
  | _, some acc, [] => [acc.reverse]
  | need_comma, none, c :: cs =>
    if c = ' ' ∨ c = '\t' then token_list_scan need_comma none cs
    else if is_token_char c then
      if need_comma then [] else token_list_scan need_comma (some [c]) cs
    else if c = ',' then token_list_scan false none cs
    else []
  | need_comma, some acc, c :: cs =>
    if is_token_char c then token_list_scan need_comma (some (c :: acc)) cs
    else acc.reverse ::
      (if c = ' ' ∨ c = '\t' then token_list_scan true none cs
       else if c = ',' then token_list_scan false none cs
       else [])

/-- The tokens of a header value, as `http::token_list` enumerates them. -/
def token_list (value : String) : List (List Char) :=
  token_list_scan false none value.data

/-- The call `token_list::exists(s)`. -/
def token_list_exists (value s : String) : Bool :=
  (token_list value).any (fun t => iequals_chars s.data t)

/-- The helper `detail::filter_token_list`: the tokens `pred` rejects are
dropped, the others are joined by `", "`. -/
def filter_token_list (value : String) (pred : List Char → Bool) : String :=
  String.mk (List.intercalate [',', ' '] ((token_list value).filter (fun t => !pred t)))

/-- The helper `detail::keep_alive_impl`: the new `Connection` value. -/
def keep_alive_impl (value : String) (version : Nat) (keep_alive : Bool) : String :=
  if version < 11 then
    if keep_alive then
      let s := filter_token_list value (fun t => iequals_chars t "close".data)
      if s = "" then "keep-alive"
      else if !token_list_exists value "keep-alive" then s ++ ", keep-alive"
      else s
    else
      filter_token_list value
        (fun t => iequals_chars t "close".data || iequals_chars t "keep-alive".data)
  else
    if keep_alive then
      filter_token_list value
        (fun t => iequals_chars t "close".data || iequals_chars t "keep-alive".data)
    else
      let s := filter_token_list value (fun t => iequals_chars t "keep-alive".data)
      if s = "" then "close"
      else if !token_list_exists value "close" then s ++ ", close"
      else s

/-- The call `basic_fields::set_keep_alive_impl(version, keep_alive)`. -/
def Fields.set_keep_alive_impl (fs : Fields) (version : Nat) (keep_alive : Bool) : Fields :=
  let buf := keep_alive_impl (fs.at "Connection") version keep_alive
  if buf = "" then fs.erase "Connection" else fs.set "Connection" buf

/-- The call `basic_fields::get_keep_alive_impl(version)`. -/
def Fields.get_keep_alive_impl (fs : Fields) (version : Nat) : Bool :=
  match fs.find "Connection" with
  | none => !decide (version < 11)
  | some f =>
    if version < 11 then token_list_exists f.value "keep-alive"
    else !token_list_exists f.value "close"

/-- The helper `detail::filter_token_list_last`: only the last token is tested. -/
def filter_token_list_last (value : String) (pred : List Char → Bool) : String :=
  let ts := token_list value
  match ts.getLast? with
  | none => ""
  | some t =>
    String.mk (List.intercalate [',', ' '] (if pred t then ts.dropLast else ts))

/-- The call `basic_fields::set_chunked_impl(false)`: removes a final `chunked`
from `Transfer-Encoding`, if that field is present. -/
def Fields.set_chunked_impl_false (fs : Fields) : Fields :=
  match fs.find "Transfer-Encoding" with
  | none => fs
  | some f =>
    let buf := filter_token_list_last f.value (fun t => iequals_chars t "chunked".data)
    if buf = "" then fs.erase "Transfer-Encoding" else fs.set "Transfer-Encoding" buf

/-! ## Messages (`http::request<string_body>`, `http::response<string_body>`) -/

/-- A parsed `http::request<http::string_body>`. -/
structure request where
  method : String
  target : String
  version : Nat
  fields : Fields
  body : String
  deriving DecidableEq, Repr

/-- An `http::response<http::string_body>`; a default-constructed one is
HTTP/1.1 with status 200 (`status::ok`), no fields and an empty body. -/
structure response where
  version : Nat := 11
  result : Nat := 200
  fields : Fields := []
  body : String := ""
  deriving DecidableEq, Repr

/-- The getter `message::keep_alive()` of a request. -/
def request.keep_alive (req : request) : Bool :=
  req.fields.get_keep_alive_impl req.version

/-- The getter `message::keep_alive()` of a response. -/
def response.keep_alive (res : response) : Bool :=
  res.fields.get_keep_alive_impl res.version

/-- The setter `message::keep_alive(bool)`. -/
def response.set_keep_alive (res : response) (value : Bool) : response :=
  { res with fields := res.fields.set_keep_alive_impl res.version value }

/-- The call `response.set(name, value)`. -/
def response.set (res : response) (name value : String) : response :=
  { res with fields := res.fields.set name value }

/-- The size `string_body::size(body)`: the number of bytes of the body. -/
def response.payload_size (res : response) : Nat :=
  res.body.utf8ByteSize

/-- The call `message::prepare_payload()` on a response with a `string_body`
(whose payload size is always known): throws `std::invalid_argument` when the
status forbids a body (1xx, 204, 304) and the body is not empty; otherwise sets
`Content-Length` to the decimal payload size and clears chunked encoding. -/
def response.prepare_payload (res : response) : Except String response :=
  let n := res.payload_size
  if 0 < n ∧ (res.result / 100 = 1 ∨ res.result = 204 ∨ res.result = 304) then
    .error "invalid response body"
  else
    .ok { res with
      fields := (res.fields.set "Content-Length" (Nat.repr n)).set_chunked_impl_false }

/-! ## `static_response_class` and the two globals -/

/-- The class `static_response_class`: it holds one response. -/
structure static_response_class where
  response : response
  deriving DecidableEq, Repr

/-- The constructor `static_response_class(static_page)`. -/
def static_response_class.ctor (static_page : static_page_class) : static_response_class :=
  let r0 : eghost.response := {}
  let r1 := { r0 with body := static_page.html }
  let r2 := r1.set "Server" host_config.name
  let r3 := r2.set "Content-Type" "text/html"
  let r4 := r3.set "Host" host_config.url_host
  { response := r4 }

/-- The global `eghost::static_page`. -/
def static_page : static_page_class :=
  static_page_class.ctor host_config.url_prefix host_config.url_host

/-- The initial value of the global `eghost::static_response`. -/
def static_response : static_response_class :=
  static_response_class.ctor static_page

/-! ## The environment: a finite script of I/O completions -/

/-- How `http::async_read` on a connection completes: with a parsed request, or
by throwing `system_error` (malformed bytes, end of stream, I/O error). -/
inductive ReadResult where
  | ok (req : request)
  | error (what : String)
  deriving DecidableEq, Repr

/-- How `http::async_write` on a connection completes. -/
inductive WriteResult where
  | ok
  | error (what : String)
  deriving DecidableEq, Repr

/-- One inbound connection: the completion of its read, the text that
`std::chrono::system_clock::now()` prints when the response is prepared, and
the completion of its write. -/
structure Connection where
  read : ReadResult
  now : String
  write : WriteResult
  deriving DecidableEq, Repr

/-- How `__acceptor.async_accept` completes. -/
inductive AcceptResult where
  | ok (conn : Connection)
  | error (what : String)
  deriving DecidableEq, Repr

/-- The observable actions of the program, in program order.  Sessions are
numbered by the order in which their connections are accepted. -/
inductive Event where
  /-- The call `make_shared<server>(executor, host, port)` in `main`. -/
  | server_constructed (address : String) (port : Nat)
  /-- The coroutine `server::accept` suspends in `__acceptor.async_accept`. -/
  | async_accept
  /-- The constructor of `session` ("A session is created."). -/
  | session_created (id : Nat)
  /-- The call `http::async_read(__stream, __buffer, __request)`. -/
  | async_read (id : Nat)
  /-- The request dump written to `std::clog`. -/
  | clog_request (id : Nat) (req : request)
  /-- The call `http::async_write(__stream, static_response.response)`,
  with the message handed to it. -/
  | async_write (id : Nat) (res : response)
  /-- The response dump written to `std::clog`. -/
  | clog_response (id : Nat) (res : response)
  /-- The destructor of `session`: `__stream.close()` ("A session is closed."). -/
  | stream_close (id : Nat)
  /-- The text written to `std::cerr` by the handler in `main`. -/
  | cerr (text : String)
  deriving DecidableEq, Repr

/-- The outcome of running a session coroutine to completion: whether it
returned or threw, the value of the global `static_response.response`
afterwards, and the actions performed. -/
structure SessionRun where
  result : Except String Unit
  static_response : response
  trace : List Event

/-- The coroutine `session::read_write`, for session `id` on connection `conn`,
started with the global `static_response.response` equal to `sr`. -/
def session.read_write (id : Nat) (conn : Connection) (sr : response) : SessionRun :=
  match conn.read with
  | .error what =>
    { result := .error what, static_response := sr, trace := [.async_read id] }
  | .ok __request =>
    let sr1 := sr.set_keep_alive __request.keep_alive
    match sr1.prepare_payload with
    | .error what =>
      { result := .error what, static_response := sr1,
        trace := [.async_read id, .clog_request id __request] }
    | .ok sr2 =>
      let sr3 := sr2.set "Date-Time" conn.now
      match conn.write with
      | .error what =>
        { result := .error what, static_response := sr3,
          trace := [.async_read id, .clog_request id __request, .async_write id sr3] }
      | .ok =>
        { result := .ok (), static_response := sr3,
          trace := [.async_read id, .clog_request id __request, .async_write id sr3,
                    .clog_response id sr3] }

/-- The coroutine `session::run`. -/
def session.run (id : Nat) (conn : Connection) (sr : response) : SessionRun :=
  session.read_write id conn sr

/-- How the server coroutine ends on a finite script: it never returns; either
it stays suspended in `async_accept` (the script is exhausted) or an exception
leaves it. -/
inductive ServerEnd where
  | suspended
  | threw (what : String)
  deriving DecidableEq, Repr

/-- The outcome of running the server coroutine over a script. -/
structure ServerRun where
  result : ServerEnd
  static_response : response
  trace : List Event

/-- The coroutine `server::accept`.  `id` numbers the next session.  The
statement `co_await std::make_shared<session>(std::move(socket))->run();` creates
the session, awaits its `run()` to completion, and destroys the temporary
`shared_ptr` (hence the session, closing its stream) at the end of the full
expression, whether `run()` returned or threw; only then `co_await this->accept()`
is reached. -/
def server.accept : List AcceptResult → Nat → response → ServerRun
  | [], _, sr =>
    { result := .suspended, static_response := sr, trace := [.async_accept] }
  | .error what :: _, _, sr =>
    { result := .threw what, static_response := sr, trace := [.async_accept] }
  | .ok conn :: rest, id, sr =>
    let s := session.run id conn sr
    let block := [Event.async_accept, Event.session_created id] ++ s.trace ++
      [Event.stream_close id]
    match s.result with
    | .error what =>
      { result := .threw what, static_response := s.static_response, trace := block }
    | .ok () =>
      let t := server.accept rest (id + 1) s.static_response
      { result := t.result, static_response := t.static_response,
        trace := block ++ t.trace }

/-- The coroutine `server::run`, on a server whose first session is number 0. -/
def server.run (script : List AcceptResult) (sr : response) : ServerRun :=
  server.accept script 0 sr

/-! ## `main` -/

/-- The predicate `std::isspace` in the "C" locale. -/
def isspace (c : Char) : Bool :=
  c.toNat = 32 || (9 ≤ c.toNat && c.toNat ≤ 13)

/-- The function `std::stoi(str)` (base 10): skips leading white space, reads an
optional sign and the longest run of decimal digits, ignores what follows;
throws `std::invalid_argument` when there is no digit and `std::out_of_range`
when the value does not fit an `int` (both with `what()` = `"stoi"`). -/
def stoi (str : String) : Except String Int :=
  let s := str.data.dropWhile isspace
  let signed : Bool × List Char :=
    match s with
    | '-' :: t => (true, t)
    | '+' :: t => (false, t)
    | _ => (false, s)
  let digits := signed.2.takeWhile Char.isDigit
  if digits = [] then .error "stoi"
  else
    let magnitude : Int := digits.foldl (fun acc d => 10 * acc + ((d.toNat : Int) - 48)) 0
    let n : Int := if signed.1 then -magnitude else magnitude
    if n < -2147483648 ∨ 2147483647 < n then .error "stoi" else .ok n

/-- The conversion `static_cast<unsigned short>(n)` of an `int`. -/
def static_cast_unsigned_short (n : Int) : Nat :=
  (n % 65536).toNat

/-- The outcome of `main`: the actions performed and the exit status, `none`
when `main` never returns (`io_context.run()` keeps waiting). -/
structure MainRun where
  trace : List Event
  exit_status : Option Nat
  deriving DecidableEq, Repr

/-- The handler `catch (const std::exception & e)` of `main`: prints to
`std::cerr`; control then reaches the end of `main`, which returns 0. -/
def main.catch_handler (before : List Event) (what : String) : MainRun :=
  { trace := before ++ [.cerr ("eghost server error:\n" ++ what ++ "..." ++ "\n")],
    exit_status := some 0 }

/-- The function `main(argc, argv)`, with `argc = argv.length`.  `bind` is the
outcome of constructing the acceptor in the constructor of `server`
(`make_address` and opening, binding and listening on the endpoint); `script`
is what the network then delivers.  An exception leaving the spawned coroutine
is rethrown by the completion handler out of `io_context.run()` and caught by
the handler of `main`. -/
def main (argv : List String) (bind : Except String Unit) (script : List AcceptResult) :
    MainRun :=
  if argv.length ≠ 3 then
    main.catch_handler [] "http_server <bind address> <bind port>"
  else
    let host := argv.getD 1 ""
    match stoi (argv.getD 2 "") with
    | .error what => main.catch_handler [] what
    | .ok n =>
      let port := static_cast_unsigned_short n
      match bind with
      | .error what => main.catch_handler [.server_constructed host port] what
      | .ok () =>
        let r := server.run script static_response.response
        match r.result with
        | .threw what => main.catch_handler (.server_constructed host port :: r.trace) what
        | .suspended =>
          { trace := .server_constructed host port :: r.trace, exit_status := none }

/-! ## Vocabulary of the statements -/

/-- The block of `session::read_write` between the `////////` markers: the
three mutations `keep_alive(..)`, `prepare_payload()`, `set("Date-Time", ..)`
applied to a response `sr`, for a request whose keep-alive flag is
`keep_alive`, at clock text `now`. -/
def prepare_response (sr : response) (keep_alive : Bool) (now : String) :
    Except String response :=
  match (sr.set_keep_alive keep_alive).prepare_payload with
  | .error what => .error what
  | .ok sr2 => .ok (sr2.set "Date-Time" now)

/-- The per-session alternative to the shared global: the same three steps
applied to a freshly constructed `static_response_class`. -/
def clone_response (req : request) (now : String) : Except String response :=
  prepare_response (static_response_class.ctor static_page).response req.keep_alive now

/-- The header list of a prepared response, written out. -/
def prepared_fields (keep_alive : Bool) (now : String) : Fields :=
  [⟨"Server", "eghost"⟩, ⟨"Content-Type", "text/html"⟩, ⟨"Host", "www.boost.org"⟩] ++
  (if keep_alive then [] else [⟨"Connection", "close"⟩]) ++
  [⟨"Content-Length", "208"⟩, ⟨"Date-Time", now⟩]

/-- The response every exchange hands to `async_write`, written out. -/
def prepared (keep_alive : Bool) (now : String) : response :=
  { version := 11, result := 200, fields := prepared_fields keep_alive now,
    body := static_page.html }

/-- The error a connection's exchange ends with, if any: that of its read, or
else that of its write. -/
def Connection.failure (conn : Connection) : Option String :=
  match conn.read with
  | .error what => some what
  | .ok _ =>
    match conn.write with
    | .error what => some what
    | .ok => none

/-- The session an event belongs to; `none` for the actions of `server` and `main`. -/
def Event.session : Event → Option Nat
  | .server_constructed _ _ => none
  | .async_accept => none
  | .session_created id => some id
  | .async_read id => some id
  | .clog_request id _ => some id
  | .async_write id _ => some id
  | .clog_response id _ => some id
  | .stream_close id => some id
  | .cerr _ => none

/-- An action of the read/write exchange of session `id`. -/
def Event.is_exchange (id : Nat) : Event → Bool
  | .async_read j => j == id
  | .clog_request j _ => j == id
  | .async_write j _ => j == id
  | .clog_response j _ => j == id
  | _ => false

/-- A request read of session `id`. -/
def Event.is_read (id : Nat) : Event → Bool
  | .async_read j => j == id
  | _ => false

/-- A response write of session `id`. -/
def Event.is_write (id : Nat) : Event → Bool
  | .async_write j _ => j == id
  | _ => false

/-- The responses session `id` handed to `async_write`, in order. -/
def written_responses (id : Nat) (trace : List Event) : List response :=
  trace.filterMap (fun e =>
    match e with
    | .async_write j res => if j = id then some res else none
    | _ => none)

/-- One step of the bookkeeping of live sessions. -/
def active_step (live : List Nat) : Event → List Nat
  | .session_created id => id :: live
  | .stream_close id => live.erase id
  | _ => live

/-- The sessions that are active after a trace: created, stream not yet closed. -/
def active_sessions (trace : List Event) : List Nat :=
  trace.foldl active_step []

/-- The number of positions of `s` at which `pat` occurs. -/
def count_occurrences (pat : List Char) : List Char → Nat
  | [] => if pat = [] then 1 else 0
  | c :: cs => (if pat.isPrefixOf (c :: cs) then 1 else 0) + count_occurrences pat cs

/-- The targets of the hyperlinks of an HTML text: for each occurrence of
`<a href="`, the characters up to the closing quote. -/
def anchor_hrefs : List Char → List (List Char)
  | [] => []
  | c :: cs =>
    if "<a href=\"".data.isPrefixOf (c :: cs) then
      ((c :: cs).drop 9).takeWhile (fun x => x != '"') :: anchor_hrefs cs
    else anchor_hrefs cs

/-- The actions of one exchange, as a function of the connection alone. -/
def exchange_trace (id : Nat) (conn : Connection) : List Event :=
  match conn.read with
  | .error _ => [.async_read id]
  | .ok req =>
    match conn.write with
    | .error _ =>
      [.async_read id, .clog_request id req,
        .async_write id (prepared req.keep_alive conn.now)]
    | .ok =>
      [.async_read id, .clog_request id req,
        .async_write id (prepared req.keep_alive conn.now),
        .clog_response id (prepared req.keep_alive conn.now)]

/-- The actions of the accept loop, as a function of the script alone. -/
def script_trace : List AcceptResult → Nat → List Event
  | [], _ => [.async_accept]
  | .error _ :: _, _ => [.async_accept]
  | .ok conn :: rest, id =>
    [Event.async_accept, Event.session_created id] ++ exchange_trace id conn ++
      [Event.stream_close id] ++
      (match conn.failure with
       | some _ => []
       | none => script_trace rest (id + 1))

/-- The way the accept loop ends, as a function of the script alone. -/
def script_end : List AcceptResult → ServerEnd
  | [] => .suspended
  | .error what :: _ => .threw what
  | .ok conn :: rest =>
    match conn.failure with
    | some what => .threw what
    | none => script_end rest

/-- The states the global `static_response.response` can be in between
exchanges: as constructed, or as the previous exchange prepared it. -/
def shared_state (sr : response) : Prop :=
  sr = static_response.response ∨ ∃ b now, sr = prepared b now

/-! ## Concrete inputs -/

/-- The request `GET / HTTP/1.1` with `Host: x` (keep-alive by default). -/
def sample_request : request :=
  { method := "GET", target := "/", version := 11, fields := [⟨"Host", "x"⟩], body := "" }

/-- The request `GET / HTTP/1.0` with `Host: x` (no keep-alive by default). -/
def sample_request_http10 : request :=
  { method := "GET", target := "/", version := 10, fields := [⟨"Host", "x"⟩], body := "" }

/-- A connection whose exchange completes. -/
def sample_connection : Connection :=
  { read := .ok sample_request, now := "2025-01-01 00:00:00.000000000", write := .ok }

/-- A connection on HTTP/1.0 whose exchange completes. -/
def sample_connection_http10 : Connection :=
  { read := .ok sample_request_http10, now := "2025-01-01 00:00:01.000000000", write := .ok }

/-- A connection whose peer sends bytes that are not HTTP. -/
def sample_bad_connection : Connection :=
  { read := .error "bad method", now := "2025-01-01 00:00:02.000000000", write := .ok }

/-- A connection whose peer goes away before the response is written. -/
def sample_reset_connection : Connection :=
  { read := .ok sample_request, now := "2025-01-01 00:00:03.000000000",
    write := .error "Broken pipe" }

/-- A command line with the two positional arguments. -/
def sample_argv : List String := ["http_server", "127.0.0.1", "8080"]

/-- Every response write in the trace comes after a request read of the same
session. -/
def write_after_read (t : List Event) : Prop :=
  ∀ (i id : Nat) (res : response), t[i]? = some (Event.async_write id res) →
    ∃ j, j < i ∧ t[j]? = some (Event.async_read id)

/-- Sessions run one at a time: no session is active at the end of the trace,
at most one is active at any point of it, and none is active when
`async_accept` is issued. -/
def serial (t : List Event) : Prop :=
  active_sessions t = [] ∧
  ∀ k : Nat, (active_sessions (t.take k)).length ≤ 1 ∧
    (t[k]? = some Event.async_accept → active_sessions (t.take k) = [])

/-! ## The shared response: what an exchange prepares -/

set_option maxRecDepth 100000 in
theorem static_page_html_size : static_page.html.utf8ByteSize = 208 := by decide

theorem prepared_payload_size (b : Bool) (now : String) :
    (prepared b now).payload_size = 208 := static_page_html_size

theorem static_response_payload_size :
    static_response.response.payload_size = 208 := static_page_html_size

theorem prepare_payload_of_result_200 (sr : response) (h : sr.result = 200) :
    sr.prepare_payload = .ok { sr with
      fields := (sr.fields.set "Content-Length"
        (Nat.repr sr.payload_size)).set_chunked_impl_false } := by
  simp [response.prepare_payload, h]

theorem prepare_response_of_result_200 (sr : response) (b : Bool) (now : String)
    (h : sr.result = 200) :
    prepare_response sr b now = .ok
      { sr with
        fields := Fields.set (Fields.set_chunked_impl_false (Fields.set
          (sr.fields.set_keep_alive_impl sr.version b) "Content-Length"
            (Nat.repr sr.payload_size))) "Date-Time" now } := by
  have h2 : (sr.set_keep_alive b).result = 200 := h
  simp only [prepare_response, prepare_payload_of_result_200 _ h2]
  rfl

set_option maxRecDepth 100000 in
theorem prepare_fresh (b : Bool) (now : String) :
    prepare_response static_response.response b now = .ok (prepared b now) := by
  rw [prepare_response_of_result_200 _ _ _ rfl, static_response_payload_size]
  cases b <;> rfl

set_option maxRecDepth 100000 in
theorem prepare_prepared (b' : Bool) (now' : String) (b : Bool) (now : String) :
    prepare_response (prepared b' now') b now = .ok (prepared b now) := by
  rw [prepare_response_of_result_200 _ _ _ rfl, prepared_payload_size]
  cases b <;> cases b' <;> rfl

set_option maxRecDepth 100000 in
theorem prepared_keep_alive (b : Bool) (now : String) :
    (prepared b now).keep_alive = b := by
  cases b <;> rfl

theorem prepare_shared (sr : response) (h : shared_state sr) (b : Bool) (now : String) :
    prepare_response sr b now = .ok (prepared b now) := by
  rcases h with h | ⟨b', now', h⟩
  · rw [h]; exact prepare_fresh b now
  · rw [h]; exact prepare_prepared b' now' b now

theorem shared_state_prepared (b : Bool) (now : String) : shared_state (prepared b now) :=
  Or.inr ⟨b, now, rfl⟩

theorem shared_state_initial : shared_state static_response.response :=
  Or.inl rfl

theorem prepare_steps_shared (sr : response) (h : shared_state sr) (b : Bool)
    (now : String) :
    ∃ sr2, (sr.set_keep_alive b).prepare_payload = .ok sr2 ∧
      sr2.set "Date-Time" now = prepared b now := by
  have hp := prepare_shared sr h b now
  unfold prepare_response at hp
  cases hq : (sr.set_keep_alive b).prepare_payload with
  | error what => rw [hq] at hp; cases hp
  | ok sr2 =>
    rw [hq] at hp
    exact ⟨sr2, rfl, Except.ok.inj hp⟩

/-! ## One session -/

theorem session_run_read_error (id : Nat) (conn : Connection) (sr : response)
    (what : String) (h : conn.read = .error what) :
    session.run id conn sr =
      { result := .error what, static_response := sr, trace := [.async_read id] } := by
  simp only [session.run, session.read_write, h]

theorem session_run_write_error (id : Nat) (conn : Connection) (sr : response)
    (hs : shared_state sr) (req : request) (what : String)
    (hr : conn.read = .ok req) (hw : conn.write = .error what) :
    session.run id conn sr =
      { result := .error what, static_response := prepared req.keep_alive conn.now,
        trace := [.async_read id, .clog_request id req,
          .async_write id (prepared req.keep_alive conn.now)] } := by
  obtain ⟨sr2, h1, h2⟩ := prepare_steps_shared sr hs req.keep_alive conn.now
  simp only [session.run, session.read_write, hr, hw, h1, h2]

theorem session_run_ok (id : Nat) (conn : Connection) (sr : response)
    (hs : shared_state sr) (req : request)
    (hr : conn.read = .ok req) (hw : conn.write = .ok) :
    session.run id conn sr =
      { result := .ok (), static_response := prepared req.keep_alive conn.now,
        trace := [.async_read id, .clog_request id req,
          .async_write id (prepared req.keep_alive conn.now),
          .clog_response id (prepared req.keep_alive conn.now)] } := by
  obtain ⟨sr2, h1, h2⟩ := prepare_steps_shared sr hs req.keep_alive conn.now
  simp only [session.run, session.read_write, hr, hw, h1, h2]

theorem session_run_shared (id : Nat) (conn : Connection) (sr : response)
    (hs : shared_state sr) :
    (session.run id conn sr).trace = exchange_trace id conn ∧
    (session.run id conn sr).result =
      (match conn.failure with
       | some what => .error what
       | none => .ok ()) ∧
    shared_state (session.run id conn sr).static_response := by
  cases hr : conn.read with
  | error what =>
    rw [session_run_read_error id conn sr what hr]
    simp [exchange_trace, Connection.failure, hr, hs]
  | ok req =>
    cases hw : conn.write with
    | error what =>
      rw [session_run_write_error id conn sr hs req what hr hw]
      simp [exchange_trace, Connection.failure, hr, hw, shared_state_prepared]
    | ok =>
      rw [session_run_ok id conn sr hs req hr hw]
      simp [exchange_trace, Connection.failure, hr, hw, shared_state_prepared]

/-! ## The accept loop -/

theorem server_accept_shared (script : List AcceptResult) :
    ∀ (id : Nat) (sr : response), shared_state sr →
      (server.accept script id sr).trace = script_trace script id ∧
      (server.accept script id sr).result = script_end script := by
  induction script with
  | nil => intro id sr _; exact ⟨rfl, rfl⟩
  | cons a rest ih =>
    intro id sr hs
    cases a with
    | error what => exact ⟨rfl, rfl⟩
    | ok conn =>
      obtain ⟨ht, hres, hs2⟩ := session_run_shared id conn sr hs
      cases hf : conn.failure with
      | some what =>
        rw [hf] at hres
        simp only [server.accept, hres, ht, script_trace, script_end, hf,
          List.append_nil, and_self]
      | none =>
        rw [hf] at hres
        obtain ⟨ih1, ih2⟩ := ih (id + 1) _ hs2
        simp only [server.accept, hres, ht, script_trace, script_end, hf, ih1, ih2,
          and_self]

theorem exchange_trace_is_exchange (id : Nat) (conn : Connection) :
    ∀ e ∈ exchange_trace id conn, e.is_exchange id = true := by
  intro e he
  unfold exchange_trace at he
  cases hr : conn.read with
  | error what =>
    rw [hr] at he
    simp at he
    subst he
    simp [Event.is_exchange]
  | ok req =>
    rw [hr] at he
    cases hw : conn.write with
    | error what =>
      rw [hw] at he
      simp at he
      rcases he with he | he | he <;> subst he <;> simp [Event.is_exchange]
    | ok =>
      rw [hw] at he
      simp at he
      rcases he with he | he | he | he <;> subst he <;> simp [Event.is_exchange]

theorem script_trace_cons_ok (conn : Connection) (rest : List AcceptResult) (id : Nat) :
    script_trace (.ok conn :: rest) id =
      [Event.async_accept] ++
        ((Event.session_created id :: (exchange_trace id conn ++ [Event.stream_close id])) ++
          (match conn.failure with
           | some _ => []
           | none => script_trace rest (id + 1))) := by
  simp [script_trace]

/-- The shape of every run of `main`. -/
theorem main_cases (argv : List String) (bind : Except String Unit)
    (script : List AcceptResult) :
    (argv.length ≠ 3 ∧
      main argv bind script =
        main.catch_handler [] "http_server <bind address> <bind port>") ∨
    (argv.length = 3 ∧ ∃ what, stoi (argv.getD 2 "") = .error what ∧
      main argv bind script = main.catch_handler [] what) ∨
    (argv.length = 3 ∧ ∃ n what, stoi (argv.getD 2 "") = .ok n ∧ bind = .error what ∧
      main argv bind script =
        main.catch_handler
          [.server_constructed (argv.getD 1 "") (static_cast_unsigned_short n)] what) ∨
    (argv.length = 3 ∧ ∃ n, stoi (argv.getD 2 "") = .ok n ∧ bind = .ok () ∧
      main argv bind script =
        (match script_end script with
         | .threw what =>
           main.catch_handler
             (.server_constructed (argv.getD 1 "") (static_cast_unsigned_short n) ::
               script_trace script 0) what
         | .suspended =>
           { trace :=
               .server_constructed (argv.getD 1 "") (static_cast_unsigned_short n) ::
                 script_trace script 0,
             exit_status := none })) := by
  by_cases hlen : argv.length = 3
  · cases hst : stoi (argv.getD 2 "") with
    | error what =>
      right; left
      refine ⟨hlen, what, rfl, ?_⟩
      unfold main
      rw [if_neg (not_not.mpr hlen)]
      simp only [hst]
    | ok n =>
      cases bind with
      | error what =>
        right; right; left
        refine ⟨hlen, n, what, rfl, rfl, ?_⟩
        unfold main
        rw [if_neg (not_not.mpr hlen)]
        simp only [hst]
      | ok u =>
        right; right; right
        refine ⟨hlen, n, rfl, rfl, ?_⟩
        obtain ⟨h1, h2⟩ := server_accept_shared script 0 _ shared_state_initial
        unfold main
        rw [if_neg (not_not.mpr hlen)]
        simp only [hst, server.run, h1, h2]
  · left
    refine ⟨hlen, ?_⟩
    simp [main, hlen]

theorem main_trace_shape (argv : List String) (bind : Except String Unit)
    (script : List AcceptResult) :
    ∃ pre mid post, (main argv bind script).trace = pre ++ (mid ++ post) ∧
      (∀ e ∈ pre, e.session = none) ∧ (∀ e ∈ post, e.session = none) ∧
      (mid = [] ∨ mid = script_trace script 0) := by
  rcases main_cases argv bind script with ⟨_, h⟩ | ⟨_, what, _, h⟩ | ⟨_, n, what, _, _, h⟩ |
    ⟨_, n, _, _, h⟩
  · refine ⟨[], [], (main argv bind script).trace, by simp, by simp, ?_, Or.inl rfl⟩
    rw [h]
    simp [main.catch_handler, Event.session]
  · refine ⟨[], [], (main argv bind script).trace, by simp, by simp, ?_, Or.inl rfl⟩
    rw [h]
    simp [main.catch_handler, Event.session]
  · refine ⟨[], [], (main argv bind script).trace, by simp, by simp, ?_, Or.inl rfl⟩
    rw [h]
    simp [main.catch_handler, Event.session]
  · rw [h]
    cases script_end script with
    | threw what =>
      refine ⟨[.server_constructed (argv.getD 1 "") (static_cast_unsigned_short n)],
        script_trace script 0,
        [.cerr ("eghost server error:\n" ++ what ++ "..." ++ "\n")], ?_, ?_, ?_, Or.inr rfl⟩
      · simp [main.catch_handler]
      · simp [Event.session]
      · simp [Event.session]
    | suspended =>
      refine ⟨[.server_constructed (argv.getD 1 "") (static_cast_unsigned_short n)],
        script_trace script 0, [], ?_, ?_, ?_, Or.inr rfl⟩
      · simp
      · simp [Event.session]
      · simp

/-! ## What is written -/

theorem exchange_trace_write_mem (j : Nat) (conn : Connection) (id : Nat) (res : response)
    (h : Event.async_write id res ∈ exchange_trace j conn) :
    id = j ∧ ∃ req, conn.read = .ok req ∧ res = prepared req.keep_alive conn.now := by
  unfold exchange_trace at h
  cases hr : conn.read with
  | error what =>
    rw [hr] at h
    simp at h
  | ok req =>
    rw [hr] at h
    cases hw : conn.write with
    | error what =>
      rw [hw] at h
      simp at h
      exact ⟨h.1, req, rfl, h.2⟩
    | ok =>
      rw [hw] at h
      simp at h
      exact ⟨h.1, req, rfl, h.2⟩

theorem script_trace_write_mem (script : List AcceptResult) :
    ∀ (start id : Nat) (res : response),
      Event.async_write id res ∈ script_trace script start →
      start ≤ id ∧ ∃ conn req, script[id - start]? = some (.ok conn) ∧
        conn.read = .ok req ∧ res = prepared req.keep_alive conn.now := by
  induction script with
  | nil => intro start id res h; simp [script_trace] at h
  | cons a rest ih =>
    intro start id res h
    cases a with
    | error what => simp [script_trace] at h
    | ok conn =>
      rw [script_trace_cons_ok] at h
      simp only [List.mem_append, List.mem_cons, List.mem_singleton, List.not_mem_nil,
        or_false, false_or] at h
      rcases h with h | (h | h | h) | h
      · cases h
      · cases h
      · obtain ⟨h1, req, h2, h3⟩ := exchange_trace_write_mem start conn id res h
        subst h1
        exact ⟨Nat.le_refl _, conn, req, by simp, h2, h3⟩
      · cases h
      · cases hf : conn.failure with
        | some what => rw [hf] at h; cases h
        | none =>
          rw [hf] at h
          obtain ⟨h1, c, req, h2, h3, h4⟩ := ih (start + 1) id res h
          refine ⟨by omega, c, req, ?_, h3, h4⟩
          have e1 : id - start = (id - (start + 1)) + 1 := by omega
          rw [e1, List.getElem?_cons_succ]
          exact h2

theorem main_write_mem (argv : List String) (bind : Except String Unit)
    (script : List AcceptResult) (id : Nat) (res : response)
    (h : Event.async_write id res ∈ (main argv bind script).trace) :
    ∃ conn req, script[id]? = some (.ok conn) ∧
      conn.read = .ok req ∧ res = prepared req.keep_alive conn.now := by
  obtain ⟨pre, mid, post, ht, hpre, hpost, hmid⟩ := main_trace_shape argv bind script
  rw [ht] at h
  simp only [List.mem_append] at h
  rcases h with h | h | h
  · have := hpre _ h
    simp [Event.session] at this
  · rcases hmid with hmid | hmid
    · rw [hmid] at h; cases h
    · rw [hmid] at h
      obtain ⟨_, c, req, h2, h3, h4⟩ := script_trace_write_mem script 0 id res h
      exact ⟨c, req, h2, h3, h4⟩
  · have := hpost _ h
    simp [Event.session] at this

/-! ## Scripts that begin with completed exchanges -/

theorem exchange_trace_session (id : Nat) (conn : Connection) :
    ∀ e ∈ exchange_trace id conn, e.session = some id := by
  intro e he
  have h := exchange_trace_is_exchange id conn e he
  cases e <;> simp [Event.is_exchange] at h <;> simp [Event.session, h]

theorem exchange_trace_count_accept (id : Nat) (conn : Connection) :
    (exchange_trace id conn).count .async_accept = 0 := by
  rw [List.count_eq_zero]
  intro h
  have := exchange_trace_is_exchange id conn _ h
  simp [Event.is_exchange] at this

theorem script_trace_after_completed (earlier : List Connection) (tail : List AcceptResult) :
    ∀ start, (∀ c ∈ earlier, c.failure = none) →
      ∃ T, script_trace (earlier.map .ok ++ tail) start =
          T ++ script_trace tail (start + earlier.length) ∧
        (∀ e ∈ T, ∀ j, e.session = some j → j < start + earlier.length) ∧
        T.count .async_accept = earlier.length ∧
        script_end (earlier.map .ok ++ tail) = script_end tail := by
  induction earlier with
  | nil =>
    intro start _
    exact ⟨[], by simp, by simp, by simp, by simp⟩
  | cons c cs ih =>
    intro start hc
    have hc0 : c.failure = none := hc c (List.mem_cons_self _ _)
    obtain ⟨T, hT, hs, hcount, hend⟩ :=
      ih (start + 1) (fun x hx => hc x (List.mem_cons_of_mem _ hx))
    refine ⟨[Event.async_accept] ++
      ((Event.session_created start :: (exchange_trace start c ++ [Event.stream_close start]))
        ++ T), ?_, ?_, ?_, ?_⟩
    · simp only [List.map_cons, List.cons_append, script_trace_cons_ok, hc0, hT,
        List.length_cons]
      have e1 : start + 1 + cs.length = start + (cs.length + 1) := by omega
      rw [e1]
      simp
    · intro e he j hj
      simp only [List.mem_append, List.mem_cons, List.mem_singleton, List.not_mem_nil,
        or_false] at he
      rcases he with he | (he | he | he) | he
      · subst he; simp [Event.session] at hj
      · subst he; simp [Event.session] at hj; simp only [List.length_cons]; omega
      · have := exchange_trace_session start c e he
        rw [this] at hj
        simp at hj
        simp only [List.length_cons]; omega
      · subst he; simp [Event.session] at hj; simp only [List.length_cons]; omega
      · have := hs e he j hj
        simp only [List.length_cons]; omega
    · simp only [List.count_append, List.count_cons, List.count_nil, hcount,
        exchange_trace_count_accept, List.length_cons]
      simp
      omega
    · simp only [List.map_cons, List.cons_append, script_end, hc0]
      exact hend

theorem written_responses_append (id : Nat) (a b : List Event) :
    written_responses id (a ++ b) = written_responses id a ++ written_responses id b := by
  simp [written_responses, List.filterMap_append]

theorem written_responses_of_other_sessions (id : Nat) (t : List Event)
    (h : ∀ e ∈ t, e.session ≠ some id) : written_responses id t = [] := by
  unfold written_responses
  rw [List.filterMap_eq_nil_iff]
  intro e he
  have := h e he
  cases e <;> simp [Event.session] at this ⊢
  exact this

theorem written_responses_last (id : Nat) (conn : Connection) (req : request)
    (hread : conn.read = .ok req) :
    written_responses id (script_trace [.ok conn] id) = [prepared req.keep_alive conn.now] := by
  cases hw : conn.write <;>
    simp [script_trace, exchange_trace, hread, hw, written_responses, Connection.failure]

theorem clone_response_eq (req : request) (now : String) :
    clone_response req now = .ok (prepared req.keep_alive now) :=
  prepare_fresh req.keep_alive now


/-! ## One read, then at most one write -/

theorem write_after_read_append (a b : List Event) (ha : write_after_read a)
    (hb : write_after_read b) : write_after_read (a ++ b) := by
  intro i id res h
  by_cases hi : i < a.length
  · rw [List.getElem?_append_left hi] at h
    obtain ⟨j, hj, hr⟩ := ha i id res h
    exact ⟨j, hj, by rw [List.getElem?_append_left (by omega)]; exact hr⟩
  · have hi2 : a.length ≤ i := by omega
    rw [List.getElem?_append_right hi2] at h
    obtain ⟨j, hj, hr⟩ := hb _ id res h
    refine ⟨j + a.length, by omega, ?_⟩
    rw [List.getElem?_append_right (by omega)]
    simpa using hr

theorem write_after_read_of_no_write (t : List Event)
    (h : ∀ e ∈ t, ∀ id res, e ≠ .async_write id res) : write_after_read t := by
  intro i id res hi
  exact absurd rfl (h _ (List.getElem?_mem hi) id res)

theorem write_after_read_exchange (id : Nat) (conn : Connection) :
    write_after_read (exchange_trace id conn) := by
  intro i id' res h
  have hm := exchange_trace_write_mem id conn id' res (List.getElem?_mem h)
  obtain ⟨hid, req, hr, _⟩ := hm
  subst hid
  unfold exchange_trace at h ⊢
  rw [hr] at h ⊢
  cases hw : conn.write with
  | error what =>
    rw [hw] at h
    simp only at h ⊢
    match i, h with
    | 0, h => simp at h
    | 1, h => simp at h
    | i + 2, _ => exact ⟨0, by omega, rfl⟩
  | ok =>
    rw [hw] at h
    simp only at h ⊢
    match i, h with
    | 0, h => simp at h
    | 1, h => simp at h
    | i + 2, _ => exact ⟨0, by omega, rfl⟩

theorem write_after_read_script (script : List AcceptResult) :
    ∀ id, write_after_read (script_trace script id) := by
  induction script with
  | nil =>
    intro id
    exact write_after_read_of_no_write _ (by simp [script_trace])
  | cons a rest ih =>
    intro id
    cases a with
    | error what => exact write_after_read_of_no_write _ (by simp [script_trace])
    | ok conn =>
      rw [script_trace_cons_ok]
      apply write_after_read_append
      · exact write_after_read_of_no_write _ (by simp)
      · apply write_after_read_append
        · have e1 : Event.session_created id ::
              (exchange_trace id conn ++ [Event.stream_close id]) =
              [Event.session_created id] ++
                (exchange_trace id conn ++ [Event.stream_close id]) := rfl
          rw [e1]
          apply write_after_read_append
          · exact write_after_read_of_no_write _ (by simp)
          · apply write_after_read_append
            · exact write_after_read_exchange id conn
            · exact write_after_read_of_no_write _ (by simp)
        · cases conn.failure with
          | some what => exact write_after_read_of_no_write _ (by simp)
          | none => exact ih (id + 1)

theorem write_after_read_main (argv : List String) (bind : Except String Unit)
    (script : List AcceptResult) : write_after_read (main argv bind script).trace := by
  obtain ⟨pre, mid, post, ht, hpre, hpost, hmid⟩ := main_trace_shape argv bind script
  rw [ht]
  apply write_after_read_append
  · apply write_after_read_of_no_write
    intro e he id res hc
    have := hpre e he
    rw [hc] at this
    simp [Event.session] at this
  · apply write_after_read_append
    · rcases hmid with hmid | hmid
      · rw [hmid]; exact write_after_read_of_no_write _ (by simp)
      · rw [hmid]; exact write_after_read_script script 0
    · apply write_after_read_of_no_write
      intro e he id res hc
      have := hpost e he
      rw [hc] at this
      simp [Event.session] at this

theorem is_exchange_session (id : Nat) (e : Event) (h : e.is_exchange id = true) :
    e.session = some id := by
  cases e <;> simp [Event.is_exchange] at h <;> simp [Event.session, h]

theorem is_read_is_exchange (id : Nat) (e : Event) (h : e.is_read id = true) :
    e.is_exchange id = true := by
  cases e with
  | async_read j => simpa [Event.is_read, Event.is_exchange] using h
  | _ => simp [Event.is_read] at h

theorem is_write_is_exchange (id : Nat) (e : Event) (h : e.is_write id = true) :
    e.is_exchange id = true := by
  cases e with
  | async_write j res => simpa [Event.is_write, Event.is_exchange] using h
  | _ => simp [Event.is_write] at h

theorem script_trace_session_ge (script : List AcceptResult) :
    ∀ start, ∀ e ∈ script_trace script start, ∀ j, e.session = some j → start ≤ j := by
  induction script with
  | nil => intro start e he j hj; simp [script_trace] at he; subst he; cases hj
  | cons a rest ih =>
    intro start e he j hj
    cases a with
    | error what => simp [script_trace] at he; subst he; cases hj
    | ok conn =>
      rw [script_trace_cons_ok] at he
      simp only [List.mem_append, List.mem_cons, List.mem_singleton, List.not_mem_nil,
        or_false] at he
      rcases he with he | (he | he | he) | he
      · subst he; cases hj
      · subst he; simp [Event.session] at hj; omega
      · rw [exchange_trace_session start conn e he] at hj
        simp at hj; omega
      · subst he; simp [Event.session] at hj; omega
      · cases hf : conn.failure with
        | some what => rw [hf] at he; cases he
        | none =>
          rw [hf] at he
          have := ih (start + 1) e he j hj
          omega

theorem countP_exchange_of_other_session (p : Event → Bool) (id : Nat)
    (hp : ∀ e, p e = true → e.is_exchange id = true) (t : List Event)
    (h : ∀ e ∈ t, e.session ≠ some id) : t.countP p = 0 := by
  rw [List.countP_eq_zero]
  intro e he hpe
  exact h e he (is_exchange_session id e (hp e hpe))

theorem countP_script_le_one (p : Event → Bool) (id : Nat)
    (hp : ∀ e, p e = true → e.is_exchange id = true)
    (hx : ∀ conn, (exchange_trace id conn).countP p ≤ 1) (script : List AcceptResult) :
    ∀ start, (script_trace script start).countP p ≤ 1 := by
  have hfalse : ∀ e, e.is_exchange id = false → p e = false := by
    intro e he
    cases hpe : p e with
    | false => rfl
    | true => rw [hp e hpe] at he; cases he
  induction script with
  | nil =>
    intro start
    simp [script_trace, List.countP_cons, hfalse _ (rfl : Event.is_exchange id .async_accept = false)]
  | cons a rest ih =>
    intro start
    cases a with
    | error what =>
      simp [script_trace, List.countP_cons,
        hfalse _ (rfl : Event.is_exchange id .async_accept = false)]
    | ok conn =>
      rw [script_trace_cons_ok]
      simp only [List.countP_append, List.countP_cons, List.countP_nil,
        hfalse _ (rfl : Event.is_exchange id .async_accept = false),
        hfalse _ (rfl : Event.is_exchange id (.session_created start) = false),
        hfalse _ (rfl : Event.is_exchange id (.stream_close start) = false)]
      simp only [Bool.false_eq_true, if_false, Nat.add_zero, Nat.zero_add]
      by_cases hid : id = start
      · subst hid
        have htail : List.countP p (match conn.failure with
            | some _ => []
            | none => script_trace rest (id + 1)) = 0 := by
          apply countP_exchange_of_other_session p id hp
          intro e he hse
          cases hf : conn.failure with
          | some what => rw [hf] at he; cases he
          | none =>
            rw [hf] at he
            have := script_trace_session_ge rest (id + 1) e he id hse
            omega
        rw [htail]
        exact hx conn
      · have hX : List.countP p (exchange_trace start conn) = 0 := by
          apply countP_exchange_of_other_session p id hp
          intro e he hse
          rw [exchange_trace_session start conn e he] at hse
          simp at hse
          exact hid hse.symm
        rw [hX]
        cases conn.failure with
        | some what => simp
        | none => simpa using ih (start + 1)

theorem countP_main_le_one (p : Event → Bool) (id : Nat)
    (hp : ∀ e, p e = true → e.is_exchange id = true)
    (hx : ∀ conn, (exchange_trace id conn).countP p ≤ 1)
    (argv : List String) (bind : Except String Unit) (script : List AcceptResult) :
    (main argv bind script).trace.countP p ≤ 1 := by
  obtain ⟨pre, mid, post, ht, hpre, hpost, hmid⟩ := main_trace_shape argv bind script
  have h1 : pre.countP p = 0 :=
    countP_exchange_of_other_session p id hp pre (fun e he hc => by
      rw [hpre e he] at hc; cases hc)
  have h2 : post.countP p = 0 :=
    countP_exchange_of_other_session p id hp post (fun e he hc => by
      rw [hpost e he] at hc; cases hc)
  rw [ht, List.countP_append, List.countP_append, h1, h2]
  rcases hmid with hmid | hmid
  · rw [hmid]; simp
  · rw [hmid]
    have := countP_script_le_one p id hp hx script 0
    omega

theorem exchange_trace_countP_read (id : Nat) (conn : Connection) :
    (exchange_trace id conn).countP (Event.is_read id) ≤ 1 := by
  unfold exchange_trace
  cases conn.read with
  | error what => simp [Event.is_read]
  | ok req => cases conn.write <;> simp [Event.is_read, List.countP_cons]

theorem exchange_trace_countP_write (id : Nat) (conn : Connection) :
    (exchange_trace id conn).countP (Event.is_write id) ≤ 1 := by
  unfold exchange_trace
  cases conn.read with
  | error what => simp [Event.is_write]
  | ok req => cases conn.write <;> simp [Event.is_write, List.countP_cons]

/-! ## Sessions run one at a time -/

theorem active_sessions_append (a b : List Event) :
    active_sessions (a ++ b) = b.foldl active_step (active_sessions a) := by
  simp [active_sessions, List.foldl_append]

theorem serial_append (a b : List Event) (ha : serial a) (hb : serial b) :
    serial (a ++ b) := by
  obtain ⟨ha0, ha⟩ := ha
  obtain ⟨hb0, hb⟩ := hb
  refine ⟨?_, ?_⟩
  · rw [active_sessions_append, ha0]; exact hb0
  · intro k
    rw [List.take_append_eq_append_take]
    by_cases hk : k < a.length
    · have e1 : k - a.length = 0 := by omega
      rw [e1, List.take_zero, List.append_nil, List.getElem?_append_left hk]
      exact ha k
    · have hk2 : a.length ≤ k := by omega
      rw [List.take_of_length_le hk2, active_sessions_append, ha0,
        List.getElem?_append_right hk2]
      exact hb (k - a.length)

theorem serial_nil : serial [] := by
  refine ⟨rfl, ?_⟩
  intro k
  simp [active_sessions]

theorem serial_single (e : Event) (h : e.session = none) : serial [e] := by
  have hstep : ∀ l, active_step l e = l := by
    intro l
    cases e <;> simp [Event.session] at h <;> rfl
  refine ⟨?_, ?_⟩
  · simp [active_sessions, hstep]
  · intro k
    cases k with
    | zero => simp [active_sessions]
    | succ k => simp [active_sessions, hstep]

theorem serial_of_no_session (t : List Event) (h : ∀ e ∈ t, e.session = none) :
    serial t := by
  induction t with
  | nil => exact serial_nil
  | cons e t ih =>
    have e1 : e :: t = [e] ++ t := rfl
    rw [e1]
    exact serial_append _ _ (serial_single e (h e (List.mem_cons_self _ _)))
      (ih (fun x hx => h x (List.mem_cons_of_mem _ hx)))

theorem foldl_active_step_exchange (id : Nat) (x : List Event)
    (hx : ∀ e ∈ x, e.is_exchange id = true) (live : List Nat) :
    x.foldl active_step live = live := by
  induction x generalizing live with
  | nil => rfl
  | cons e x ih =>
    have he := hx e (List.mem_cons_self _ _)
    have hstep : active_step live e = live := by
      cases e <;> simp [Event.is_exchange] at he <;> rfl
    rw [List.foldl_cons, hstep]
    exact ih (fun y hy => hx y (List.mem_cons_of_mem _ hy)) live

theorem serial_session (id : Nat) (x : List Event)
    (hx : ∀ e ∈ x, e.is_exchange id = true) :
    serial (Event.session_created id :: (x ++ [Event.stream_close id])) := by
  refine ⟨?_, ?_⟩
  · simp [active_sessions, List.foldl_append, active_step,
      foldl_active_step_exchange id x hx]
  · intro k
    cases k with
    | zero => simp [active_sessions]
    | succ k =>
      rw [List.take_succ_cons, List.getElem?_cons_succ, List.take_append_eq_append_take]
      have hx2 : ∀ e ∈ x.take k, e.is_exchange id = true :=
        fun e he => hx e (List.mem_of_mem_take he)
      have hact : active_sessions (Event.session_created id ::
          (x.take k ++ List.take (k - x.length) [Event.stream_close id])) =
          (List.take (k - x.length) [Event.stream_close id]).foldl active_step [id] := by
        simp [active_sessions, List.foldl_append, active_step,
          foldl_active_step_exchange id _ hx2]
      rw [hact]
      refine ⟨?_, ?_⟩
      · cases hkk : k - x.length with
        | zero => simp
        | succ m => simp [active_step]
      · intro hacc
        exfalso
        have hm := List.getElem?_mem hacc
        rw [List.mem_append] at hm
        rcases hm with hm | hm
        · have := hx _ hm
          simp [Event.is_exchange] at this
        · simp at hm

theorem serial_script (script : List AcceptResult) :
    ∀ id, serial (script_trace script id) := by
  induction script with
  | nil => intro id; exact serial_single _ rfl
  | cons a rest ih =>
    intro id
    cases a with
    | error what => exact serial_single _ rfl
    | ok conn =>
      rw [script_trace_cons_ok]
      apply serial_append
      · exact serial_single _ rfl
      · apply serial_append
        · exact serial_session id _ (exchange_trace_is_exchange id conn)
        · cases conn.failure with
          | some what => exact serial_nil
          | none => exact ih (id + 1)

theorem serial_main (argv : List String) (bind : Except String Unit)
    (script : List AcceptResult) : serial (main argv bind script).trace := by
  obtain ⟨pre, mid, post, ht, hpre, hpost, hmid⟩ := main_trace_shape argv bind script
  rw [ht]
  apply serial_append
  · exact serial_of_no_session pre hpre
  · apply serial_append
    · rcases hmid with hmid | hmid
      · rw [hmid]; exact serial_nil
      · rw [hmid]; exact serial_script script 0
    · exact serial_of_no_session post hpost

/-! ## Where a session sits in the trace -/

theorem script_trace_head (script : List AcceptResult) (start : Nat) :
    ∃ rest, script_trace script start = Event.async_accept :: rest := by
  cases script with
  | nil => exact ⟨[], rfl⟩
  | cons a rest =>
    cases a with
    | error what => exact ⟨[], rfl⟩
    | ok conn => exact ⟨_, by rw [script_trace_cons_ok]; rfl⟩

theorem script_trace_created (script : List AcceptResult) :
    ∀ (start i id : Nat),
      (script_trace script start)[i]? = some (Event.session_created id) →
      start ≤ id ∧ ∃ (conn : Connection) (before after : List Event),
        script[id - start]? = some (.ok conn) ∧
        script_trace script start =
          before ++ Event.session_created id ::
            (exchange_trace id conn ++ Event.stream_close id :: after) ∧
        before.length = i ∧
        (∀ e ∈ before, e.session ≠ some id) ∧
        (∀ e ∈ after, e.session ≠ some id) ∧
        (conn.failure = none → ∃ rest, after = Event.async_accept :: rest) ∧
        (∀ what, conn.failure = some what →
          after = [] ∧ script_end script = .threw what) := by
  induction script with
  | nil =>
    intro start i id h
    have := List.getElem?_mem h
    simp [script_trace] at this
  | cons a rest ih =>
    intro start i id h
    cases a with
    | error what =>
      have := List.getElem?_mem h
      simp [script_trace] at this
    | ok conn =>
      rw [script_trace_cons_ok] at h
      rw [script_trace_cons_ok]
      cases i with
      | zero => simp at h
      | succ j =>
        rw [List.singleton_append, List.getElem?_cons_succ] at h
        cases j with
        | zero =>
          simp only [List.cons_append, List.getElem?_cons_zero, Option.some.injEq,
            Event.session_created.injEq] at h
          subst h
          refine ⟨Nat.le_refl _, conn, [Event.async_accept],
            (match conn.failure with
             | some _ => []
             | none => script_trace rest (start + 1)), by simp, ?_, rfl, ?_, ?_, ?_, ?_⟩
          · simp
          · simp [Event.session]
          · intro e he hse
            cases hf : conn.failure with
            | some what => rw [hf] at he; cases he
            | none =>
              rw [hf] at he
              have := script_trace_session_ge rest (start + 1) e he start hse
              omega
          · intro hf
            rw [hf]
            exact script_trace_head rest (start + 1)
          · intro what hf
            rw [hf]
            exact ⟨rfl, by simp only [script_end, hf]⟩
        | succ k =>
          rw [List.cons_append, List.getElem?_cons_succ, List.append_assoc] at h
          by_cases hk : k < (exchange_trace start conn).length
          · exfalso
            rw [List.getElem?_append_left hk] at h
            have := exchange_trace_is_exchange start conn _ (List.getElem?_mem h)
            simp [Event.is_exchange] at this
          · have hk2 : (exchange_trace start conn).length ≤ k := by omega
            rw [List.getElem?_append_right hk2] at h
            cases hm : k - (exchange_trace start conn).length with
            | zero => rw [hm] at h; simp at h
            | succ m =>
              rw [hm, List.singleton_append, List.getElem?_cons_succ] at h
              cases hf : conn.failure with
              | some what => rw [hf] at h; simp at h
              | none =>
                rw [hf] at h
                obtain ⟨hge, c, before, after, hc, htr, hlen, hb, ha, hnone, hsome⟩ :=
                  ih (start + 1) m id h
                refine ⟨by omega, c, Event.async_accept :: Event.session_created start ::
                  (exchange_trace start conn ++ Event.stream_close start :: before),
                  after, ?_, ?_, ?_, ?_, ha, hnone, ?_⟩
                · have e1 : id - start = (id - (start + 1)) + 1 := by omega
                  rw [e1, List.getElem?_cons_succ]
                  exact hc
                · simp only [htr]
                  simp
                · simp only [List.length_cons, List.length_append, hlen]
                  omega
                · intro e he hse
                  simp only [List.mem_cons, List.mem_append] at he
                  rcases he with he | he | he | he | he
                  · subst he; cases hse
                  · subst he; simp [Event.session] at hse; omega
                  · rw [exchange_trace_session start conn e he] at hse
                    simp at hse; omega
                  · subst he; simp [Event.session] at hse; omega
                  · exact hb e he hse
                · intro what hw
                  obtain ⟨h1, h2⟩ := hsome what hw
                  exact ⟨h1, by simp only [script_end, hf]; exact h2⟩

theorem exchange_trace_outcomes (id : Nat) (conn : Connection) :
    (∀ what, conn.read = .error what → exchange_trace id conn = [Event.async_read id]) ∧
    (∀ req what, conn.read = .ok req → conn.write = .error what →
      exchange_trace id conn =
        [Event.async_read id, Event.clog_request id req,
          Event.async_write id (prepared req.keep_alive conn.now)]) ∧
    (∀ req, conn.read = .ok req → conn.write = .ok →
      exchange_trace id conn =
        [Event.async_read id, Event.clog_request id req,
          Event.async_write id (prepared req.keep_alive conn.now),
          Event.clog_response id (prepared req.keep_alive conn.now)]) := by
  refine ⟨?_, ?_, ?_⟩
  · intro what hr
    simp only [exchange_trace, hr]
  · intro req what hr hw
    simp only [exchange_trace, hr, hw]
  · intro req hr hw
    simp only [exchange_trace, hr, hw]

theorem main_trace_created (argv : List String) (bind : Except String Unit)
    (script : List AcceptResult) (i id : Nat)
    (h : (main argv bind script).trace[i]? = some (Event.session_created id)) :
    ∃ (conn : Connection) (before after : List Event),
      script[id]? = some (.ok conn) ∧
      (main argv bind script).trace =
        before ++ Event.session_created id ::
          (exchange_trace id conn ++ Event.stream_close id :: after) ∧
      before.length = i ∧
      (∀ e ∈ before, e.session ≠ some id) ∧
      (∀ e ∈ after, e.session ≠ some id) ∧
      (conn.failure = none → ∃ rest, after = Event.async_accept :: rest) ∧
      (∀ what, conn.failure = some what →
        after = [Event.cerr ("eghost server error:\n" ++ what ++ "..." ++ "\n")]) := by
  rcases main_cases argv bind script with ⟨_, hm⟩ | ⟨_, what, _, hm⟩ |
    ⟨_, n, what, _, _, hm⟩ | ⟨_, n, _, _, hm⟩
  · rw [hm] at h
    have := List.getElem?_mem h
    simp [main.catch_handler] at this
  · rw [hm] at h
    have := List.getElem?_mem h
    simp [main.catch_handler] at this
  · rw [hm] at h
    have := List.getElem?_mem h
    simp [main.catch_handler] at this
  · rw [hm] at h ⊢
    cases hend : script_end script with
    | threw w =>
      rw [hend] at h
      simp only [main.catch_handler, List.cons_append] at h ⊢
      cases i with
      | zero => simp at h
      | succ j =>
        rw [List.getElem?_cons_succ] at h
        by_cases hj : j < (script_trace script 0).length
        · rw [List.getElem?_append_left hj] at h
          obtain ⟨_, conn, before, after, hc, htr, hlen, hb, ha, hnone, hsome⟩ :=
            script_trace_created script 0 j id h
          refine ⟨conn,
            Event.server_constructed (argv.getD 1 "") (static_cast_unsigned_short n) ::
              before,
            after ++ [Event.cerr ("eghost server error:\n" ++ w ++ "..." ++ "\n")],
            hc, ?_, ?_, ?_, ?_, ?_, ?_⟩
          · rw [htr]; simp
          · simp [hlen]
          · intro e he hse
            rw [List.mem_cons] at he
            rcases he with he | he
            · subst he; cases hse
            · exact hb e he hse
          · intro e he hse
            rw [List.mem_append, List.mem_singleton] at he
            rcases he with he | he
            · exact ha e he hse
            · subst he; cases hse
          · intro hf
            obtain ⟨rest, hrest⟩ := hnone hf
            exact ⟨rest ++ [Event.cerr ("eghost server error:\n" ++ w ++ "..." ++ "\n")],
              by rw [hrest]; rfl⟩
          · intro what hf
            obtain ⟨h1, h2⟩ := hsome what hf
            rw [hend] at h2
            cases h2
            rw [h1]; rfl
        · exfalso
          rw [List.getElem?_append_right (by omega)] at h
          have := List.getElem?_mem h
          simp at this
    | suspended =>
      rw [hend] at h
      simp only at h ⊢
      cases i with
      | zero => simp at h
      | succ j =>
        rw [List.getElem?_cons_succ] at h
        obtain ⟨_, conn, before, after, hc, htr, hlen, hb, ha, hnone, hsome⟩ :=
          script_trace_created script 0 j id h
        refine ⟨conn,
          Event.server_constructed (argv.getD 1 "") (static_cast_unsigned_short n) ::
            before, after, hc, ?_, ?_, ?_, ha, hnone, ?_⟩
        · rw [htr]; simp
        · simp [hlen]
        · intro e he hse
          rw [List.mem_cons] at he
          rcases he with he | he
          · subst he; cases hse
          · exact hb e he hse
        · intro what hf
          obtain ⟨_, h2⟩ := hsome what hf
          rw [hend] at h2
          cases h2

/-! ## Facts about the prepared response -/

set_option maxRecDepth 100000 in
theorem prepared_headers (b : Bool) (now : String) :
    (prepared b now).fields.at "Server" = "eghost" ∧
    (prepared b now).fields.at "Content-Type" = "text/html" ∧
    (prepared b now).fields.at "Host" = "www.boost.org" ∧
    (prepared b now).fields.at "Content-Length" = "208" ∧
    (prepared b now).fields.count "Content-Length" = 1 := by
  cases b <;> exact ⟨rfl, rfl, rfl, rfl, rfl⟩

set_option maxRecDepth 100000 in
theorem static_page_html_facts :
    1 ≤ count_occurrences "<title>eghost</title>".data static_page.html.data ∧
    count_occurrences "<a ".data static_page.html.data = 1 ∧
    anchor_hrefs static_page.html.data = ["https://www.boost.org".data] := by
  decide

/-! ## The claims -/

/-- C3: every response handed to `async_write`, in any run of `main` and for any
request, has status 200, the headers `Server: eghost`, `Content-Type: text/html`
and `Host: www.boost.org`, and the body `static_page.html`, which contains
`<title>eghost</title>` and exactly one hyperlink, to `https://www.boost.org`. -/
theorem C3_response_is_static_page (argv : List String) (bind : Except String Unit)
    (script : List AcceptResult) (id : Nat) (res : response)
    (h : Event.async_write id res ∈ (main argv bind script).trace) :
    res.result = 200 ∧
    res.fields.at "Server" = "eghost" ∧
    res.fields.at "Content-Type" = "text/html" ∧
    res.fields.at "Host" = "www.boost.org" ∧
    res.body = static_page.html ∧
    1 ≤ count_occurrences "<title>eghost</title>".data res.body.data ∧
    count_occurrences "<a ".data res.body.data = 1 ∧
    anchor_hrefs res.body.data = ["https://www.boost.org".data] := by
  obtain ⟨conn, req, _, _, hres⟩ := main_write_mem argv bind script id res h
  subst hres
  obtain ⟨h1, h2, h3, _, _⟩ := prepared_headers req.keep_alive conn.now
  exact ⟨rfl, h1, h2, h3, rfl, static_page_html_facts⟩

set_option maxRecDepth 100000 in
/-- C3 at a concrete run: one `GET /` on a server started on 127.0.0.1:8080. -/
theorem C3_response_is_static_page_witness :
    Event.async_write 0 (prepared true sample_connection.now) ∈
      (main sample_argv (.ok ()) [.ok sample_connection]).trace ∧
    (prepared true sample_connection.now).result = 200 ∧
    (prepared true sample_connection.now).fields.at "Content-Type" = "text/html" :=
  have hmem : Event.async_write 0 (prepared true sample_connection.now) ∈
      (main sample_argv (.ok ()) [.ok sample_connection]).trace := by decide
  have h := C3_response_is_static_page sample_argv (.ok ()) [.ok sample_connection] 0
    (prepared true sample_connection.now) hmem
  ⟨hmem, h.1, h.2.2.1⟩

/-- C9: for every sequence of completed exchanges followed by one more request,
the one response the last session hands to `async_write` out of the shared,
mutated-in-place global equals the response the same three steps produce from a
freshly constructed `static_response_class`. -/
theorem C9_shared_response_equals_fresh_clone (earlier : List Connection)
    (conn : Connection) (req : request)
    (hearlier : ∀ c ∈ earlier, c.failure = none) (hread : conn.read = .ok req) :
    ∃ res, clone_response req conn.now = .ok res ∧
      written_responses earlier.length
        (server.run (earlier.map .ok ++ [.ok conn]) static_response.response).trace =
          [res] := by
  refine ⟨prepared req.keep_alive conn.now, clone_response_eq req conn.now, ?_⟩
  obtain ⟨htrace, _⟩ :=
    server_accept_shared (earlier.map .ok ++ [.ok conn]) 0 _ shared_state_initial
  obtain ⟨T, hT, hs, _, _⟩ := script_trace_after_completed earlier [.ok conn] 0 hearlier
  rw [server.run, htrace, hT, written_responses_append]
  rw [written_responses_of_other_sessions _ T]
  · simp only [Nat.zero_add, List.nil_append]
    exact written_responses_last _ conn req hread
  · intro e he hse
    have := hs e he _ hse
    omega

set_option maxRecDepth 100000 in
/-- C9 at a concrete run: an HTTP/1.0 exchange (which leaves `Connection: close`
in the shared response) followed by an HTTP/1.1 request. -/
theorem C9_shared_response_equals_fresh_clone_witness :
    (∀ c ∈ [sample_connection_http10], c.failure = none) ∧
    sample_connection.read = .ok sample_request ∧
    ∃ res, clone_response sample_request sample_connection.now = .ok res ∧
      written_responses 1
        (server.run [.ok sample_connection_http10, .ok sample_connection]
          static_response.response).trace = [res] :=
  have h1 : ∀ c ∈ [sample_connection_http10], c.failure = none := by decide
  ⟨h1, rfl,
    C9_shared_response_equals_fresh_clone [sample_connection_http10] sample_connection
      sample_request h1 rfl⟩

/-- C4: every response handed to `async_write`, in any run of `main` and after
any number of earlier exchanges, carries exactly one `Content-Length` header,
and its value is the decimal number of bytes of the body (208). -/
theorem C4_content_length (argv : List String) (bind : Except String Unit)
    (script : List AcceptResult) (id : Nat) (res : response)
    (h : Event.async_write id res ∈ (main argv bind script).trace) :
    res.fields.count "Content-Length" = 1 ∧
    res.fields.at "Content-Length" = Nat.repr res.body.utf8ByteSize ∧
    res.body.utf8ByteSize = static_page.html.utf8ByteSize ∧
    res.fields.at "Content-Length" = "208" := by
  obtain ⟨conn, req, _, _, hres⟩ := main_write_mem argv bind script id res h
  subst hres
  obtain ⟨_, _, _, h4, h5⟩ := prepared_headers req.keep_alive conn.now
  refine ⟨h5, ?_, rfl, h4⟩
  rw [h4]
  show "208" = Nat.repr static_page.html.utf8ByteSize
  rw [static_page_html_size]
  rfl

set_option maxRecDepth 100000 in
/-- C4 at a concrete run: the third of three exchanges on one server. -/
theorem C4_content_length_witness :
    Event.async_write 2 (prepared true sample_connection.now) ∈
      (main sample_argv (.ok ())
        [.ok sample_connection, .ok sample_connection_http10, .ok sample_connection]).trace ∧
    (prepared true sample_connection.now).fields.count "Content-Length" = 1 ∧
    (prepared true sample_connection.now).fields.at "Content-Length" = "208" :=
  have hmem : Event.async_write 2 (prepared true sample_connection.now) ∈
      (main sample_argv (.ok ())
        [.ok sample_connection, .ok sample_connection_http10, .ok sample_connection]).trace := by
    decide
  have h := C4_content_length sample_argv (.ok ())
    [.ok sample_connection, .ok sample_connection_http10, .ok sample_connection] 2
    (prepared true sample_connection.now) hmem
  ⟨hmem, h.1, h.2.2.2⟩

/-- C5: the keep-alive flag of every response handed to `async_write` equals the
keep-alive flag of the request read on that same connection. -/
theorem C5_keep_alive_echo (argv : List String) (bind : Except String Unit)
    (script : List AcceptResult) (id : Nat) (res : response)
    (h : Event.async_write id res ∈ (main argv bind script).trace) :
    ∃ conn req, script[id]? = some (.ok conn) ∧ conn.read = .ok req ∧
      res.keep_alive = req.keep_alive := by
  obtain ⟨conn, req, h1, h2, hres⟩ := main_write_mem argv bind script id res h
  subst hres
  exact ⟨conn, req, h1, h2, prepared_keep_alive _ _⟩

set_option maxRecDepth 100000 in
/-- C5 at a concrete run: an HTTP/1.1 request (keep-alive) is followed by an
HTTP/1.0 request (no keep-alive); the second response is not keep-alive. -/
theorem C5_keep_alive_echo_witness :
    Event.async_write 1 (prepared false sample_connection_http10.now) ∈
      (main sample_argv (.ok ()) [.ok sample_connection, .ok sample_connection_http10]).trace ∧
    sample_request.keep_alive = true ∧
    sample_request_http10.keep_alive = false ∧
    ∃ conn req,
      [AcceptResult.ok sample_connection, .ok sample_connection_http10][1]? = some (.ok conn) ∧
      conn.read = .ok req ∧
      (prepared false sample_connection_http10.now).keep_alive = req.keep_alive :=
  have hmem : Event.async_write 1 (prepared false sample_connection_http10.now) ∈
      (main sample_argv (.ok ())
        [.ok sample_connection, .ok sample_connection_http10]).trace := by
    decide
  ⟨hmem, by decide, by decide,
    C5_keep_alive_echo sample_argv (.ok ()) [.ok sample_connection, .ok sample_connection_http10]
      1 (prepared false sample_connection_http10.now) hmem⟩

/-- C6: in every run of `main` and for every session, keep-alive or not, there
is at most one request read and at most one response write; every write is
preceded by the read of the same session; and a session whose read fails
performs no write. -/
theorem C6_one_read_then_at_most_one_write (argv : List String)
    (bind : Except String Unit) (script : List AcceptResult) (id : Nat) :
    (main argv bind script).trace.countP (Event.is_read id) ≤ 1 ∧
    (main argv bind script).trace.countP (Event.is_write id) ≤ 1 ∧
    (∀ (i : Nat) (res : response),
      (main argv bind script).trace[i]? = some (Event.async_write id res) →
      ∃ j, j < i ∧ (main argv bind script).trace[j]? = some (Event.async_read id)) ∧
    (∀ (conn : Connection) (what : String),
      script[id]? = some (.ok conn) → conn.read = .error what →
      (main argv bind script).trace.countP (Event.is_write id) = 0) := by
  refine ⟨?_, ?_, ?_, ?_⟩
  · exact countP_main_le_one _ id (is_read_is_exchange id) (exchange_trace_countP_read id)
      argv bind script
  · exact countP_main_le_one _ id (is_write_is_exchange id) (exchange_trace_countP_write id)
      argv bind script
  · intro i res h
    exact write_after_read_main argv bind script i id res h
  · intro conn what hconn hread
    rw [List.countP_eq_zero]
    intro e he hw
    cases e with
    | async_write j res =>
      simp only [Event.is_write, beq_iff_eq] at hw
      subst hw
      obtain ⟨c, req, h1, h2, _⟩ := main_write_mem argv bind script j res he
      rw [hconn] at h1
      cases h1
      rw [hread] at h2
      cases h2
    | _ => simp [Event.is_write] at hw

set_option maxRecDepth 100000 in
/-- C6 at a concrete run: a keep-alive request gets exactly one read and one
write, and the session that follows it, whose read fails, writes nothing. -/
theorem C6_one_read_then_at_most_one_write_witness :
    sample_request.keep_alive = true ∧
    (main sample_argv (.ok ()) [.ok sample_connection, .ok sample_bad_connection]).trace.countP
      (Event.is_read 0) = 1 ∧
    (main sample_argv (.ok ()) [.ok sample_connection, .ok sample_bad_connection]).trace.countP
      (Event.is_write 0) = 1 ∧
    (main sample_argv (.ok ()) [.ok sample_connection, .ok sample_bad_connection]).trace.countP
      (Event.is_write 1) = 0 :=
  ⟨by decide, by decide, by decide,
    (C6_one_read_then_at_most_one_write sample_argv (.ok ())
      [.ok sample_connection, .ok sample_bad_connection] 1).2.2.2
      sample_bad_connection "bad method" rfl rfl⟩

/-- C2 (as the code has it): `server::accept` awaits each session's `run()`
before it accepts again, so sessions run one at a time: at every point of every
run of `main` at most one session is active, and none is active when
`async_accept` is issued. -/
theorem C2_sessions_run_one_at_a_time (argv : List String) (bind : Except String Unit)
    (script : List AcceptResult) (k : Nat) :
    (active_sessions ((main argv bind script).trace.take k)).length ≤ 1 ∧
    ((main argv bind script).trace[k]? = some Event.async_accept →
      active_sessions ((main argv bind script).trace.take k) = []) :=
  (serial_main argv bind script).2 k

set_option maxRecDepth 100000 in
/-- C2 at a concrete run: the accept for the second connection is issued at
position 8 of the trace, right after the first session's stream was closed. -/
theorem C2_sessions_run_one_at_a_time_witness :
    (main sample_argv (.ok ()) [.ok sample_connection, .ok sample_connection]).trace[8]? =
      some Event.async_accept ∧
    active_sessions
      ((main sample_argv (.ok ()) [.ok sample_connection, .ok sample_connection]).trace.take 8)
      = [] :=
  have h8 : (main sample_argv (.ok ())
      [.ok sample_connection, .ok sample_connection]).trace[8]? =
      some Event.async_accept := by decide
  ⟨h8, (C2_sessions_run_one_at_a_time sample_argv (.ok ())
    [.ok sample_connection, .ok sample_connection] 8).2 h8⟩

set_option maxRecDepth 100000 in
/-- C2 as stated fails: with two connections waiting, the first session's
stream is closed (position 7) before the second `async_accept` is issued
(position 8), and no run of `main` reaches a point where two sessions are
active. -/
theorem C2_two_active_sessions_unreachable :
    (main sample_argv (.ok ()) [.ok sample_connection, .ok sample_connection]).trace[7]? =
      some (Event.stream_close 0) ∧
    (main sample_argv (.ok ()) [.ok sample_connection, .ok sample_connection]).trace[8]? =
      some Event.async_accept ∧
    ((main sample_argv (.ok ())
      [.ok sample_connection, .ok sample_connection]).trace.take 8).count
        Event.async_accept = 1 ∧
    ¬ ∃ (argv : List String) (bind : Except String Unit) (script : List AcceptResult)
        (k : Nat), 2 ≤ (active_sessions ((main argv bind script).trace.take k)).length := by
  refine ⟨by decide, by decide, by decide, ?_⟩
  rintro ⟨argv, bind, script, k, hk⟩
  have := ((serial_main argv bind script).2 k).1
  omega

/-- C8 (as the code has it): with any number of arguments other than two,
`main` constructs no server and accepts nothing; its only action is to print the
usage text to `std::cerr`, after which it returns normally with exit status 0. -/
theorem C8_usage_error_exits_zero (argv : List String) (bind : Except String Unit)
    (script : List AcceptResult) (hargc : argv.length ≠ 3) :
    main argv bind script =
      { trace := [Event.cerr
          "eghost server error:\nhttp_server <bind address> <bind port>...\n"],
        exit_status := some 0 } := by
  unfold main
  rw [if_pos hargc]
  rfl

/-- C8 at a concrete command line: no positional argument at all. -/
theorem C8_usage_error_exits_zero_witness :
    ["http_server"].length ≠ 3 ∧
    main ["http_server"] (.ok ()) [.ok sample_connection] =
      { trace := [Event.cerr
          "eghost server error:\nhttp_server <bind address> <bind port>...\n"],
        exit_status := some 0 } :=
  ⟨by decide, C8_usage_error_exits_zero ["http_server"] (.ok ()) [.ok sample_connection]
    (by decide)⟩

/-- C8 as stated fails: with one positional argument instead of two, `main`
prints the usage text and then ends with exit status 0, not a non-zero one. -/
theorem C8_exit_status_is_zero :
    ["http_server", "127.0.0.1"].length ≠ 3 ∧
    (main ["http_server", "127.0.0.1"] (.ok ()) []).exit_status = some 0 ∧
    ¬ ((main ["http_server", "127.0.0.1"] (.ok ()) []).exit_status ≠ some 0) := by
  decide

/-- C10: whenever `std::stoi` parses the port argument to an `int` `n`, the
first action of `main` is to construct the server on the host argument with the
port `n mod 65536`, a number below 65536; nothing rejects a value outside
`0..65535`. -/
theorem C10_port_is_reduced_mod_65536 (argv : List String) (bind : Except String Unit)
    (script : List AcceptResult) (n : Int)
    (hargc : argv.length = 3) (hport : stoi (argv.getD 2 "") = .ok n) :
    ∃ port : Nat,
      (main argv bind script).trace.head? =
        some (Event.server_constructed (argv.getD 1 "") port) ∧
      (port : Int) = n % 65536 ∧ port < 65536 := by
  refine ⟨static_cast_unsigned_short n, ?_, ?_, ?_⟩
  · rcases main_cases argv bind script with ⟨h, _⟩ | ⟨_, what, h, _⟩ |
      ⟨_, m, what, hm, _, h⟩ | ⟨_, m, hm, _, h⟩
    · exact absurd hargc h
    · rw [hport] at h; cases h
    · rw [hport] at hm; cases hm
      rw [h]; rfl
    · rw [hport] at hm; cases hm
      rw [h]
      cases script_end script <;> rfl
  · unfold static_cast_unsigned_short
    exact Int.toNat_of_nonneg (Int.emod_nonneg n (by decide))
  · unfold static_cast_unsigned_short
    have h1 : n % 65536 < 65536 := Int.emod_lt_of_pos n (by decide)
    have h2 : 0 ≤ n % 65536 := Int.emod_nonneg n (by decide)
    omega

set_option maxRecDepth 100000 in
/-- C10 at concrete command lines: `"70000"` becomes port 4464 and `"-1"`
becomes port 65535. -/
theorem C10_port_is_reduced_mod_65536_witness :
    stoi "70000" = .ok 70000 ∧
    (main ["http_server", "0.0.0.0", "70000"] (.ok ()) []).trace.head? =
      some (Event.server_constructed "0.0.0.0" 4464) ∧
    stoi "-1" = .ok (-1) ∧
    (main ["http_server", "0.0.0.0", "-1"] (.ok ()) []).trace.head? =
      some (Event.server_constructed "0.0.0.0" 65535) ∧
    ∃ port : Nat,
      (main ["http_server", "0.0.0.0", "70000"] (.ok ()) []).trace.head? =
        some (Event.server_constructed "0.0.0.0" port) ∧
      (port : Int) = 70000 % 65536 ∧ port < 65536 :=
  ⟨by rfl, by decide, by rfl, by decide,
    C10_port_is_reduced_mod_65536 ["http_server", "0.0.0.0", "70000"] (.ok ()) [] 70000
      (by decide) (by rfl)⟩

/-- C1 (as the code has it): a failed read or write is not contained.  When the
first failing exchange comes after any number of completed ones, its error
leaves `server::accept` once the session's stream is closed: no further
`async_accept` is issued (whatever else is waiting), `main` prints
`eghost server error:` with the error text to `std::cerr`, and returns 0. -/
theorem C1_session_error_ends_the_server (argv : List String) (earlier : List Connection)
    (conn : Connection) (rest : List AcceptResult) (n : Int) (what : String)
    (hargc : argv.length = 3) (hport : stoi (argv.getD 2 "") = .ok n)
    (hearlier : ∀ c ∈ earlier, c.failure = none) (hfail : conn.failure = some what) :
    (main argv (.ok ()) (earlier.map .ok ++ .ok conn :: rest)).exit_status = some 0 ∧
    ∃ T, (main argv (.ok ()) (earlier.map .ok ++ .ok conn :: rest)).trace =
        T ++ [Event.stream_close earlier.length,
          Event.cerr ("eghost server error:\n" ++ what ++ "...\n")] ∧
      T.count Event.async_accept = earlier.length + 1 := by
  obtain ⟨T, hT, _, hcount, hend⟩ :=
    script_trace_after_completed earlier (.ok conn :: rest) 0 hearlier
  have hend2 : script_end (earlier.map .ok ++ .ok conn :: rest) = .threw what := by
    rw [hend]; simp only [script_end, hfail]
  have htr : script_trace (earlier.map .ok ++ .ok conn :: rest) 0 =
      (T ++ ([Event.async_accept, Event.session_created earlier.length] ++
        exchange_trace earlier.length conn)) ++ [Event.stream_close earlier.length] := by
    rw [hT, script_trace_cons_ok, hfail]
    simp
  rcases main_cases argv (.ok ()) (earlier.map .ok ++ .ok conn :: rest) with
    ⟨h, _⟩ | ⟨_, w, h, _⟩ | ⟨_, m, w, _, h, _⟩ | ⟨_, m, hm, _, h⟩
  · exact absurd hargc h
  · rw [hport] at h; cases h
  · cases h
  · rw [h, hend2]
    refine ⟨rfl, Event.server_constructed (argv.getD 1 "") (static_cast_unsigned_short m) ::
      (T ++ ([Event.async_accept, Event.session_created earlier.length] ++
        exchange_trace earlier.length conn)), ?_, ?_⟩
    · simp only [main.catch_handler, htr]
      simp [String.append_assoc]
    · simp [List.count_cons, List.count_append, hcount, exchange_trace_count_accept]

set_option maxRecDepth 100000 in
/-- C1 at a concrete run: a completed exchange, then a connection sending bytes
that are not HTTP, then a third connection that is never accepted. -/
theorem C1_session_error_ends_the_server_witness :
    (∀ c ∈ [sample_connection], c.failure = none) ∧
    sample_bad_connection.failure = some "bad method" ∧
    (main sample_argv (.ok ())
      ([sample_connection].map .ok ++ .ok sample_bad_connection ::
        [.ok sample_connection])).exit_status = some 0 ∧
    ∃ T, (main sample_argv (.ok ())
        ([sample_connection].map .ok ++ .ok sample_bad_connection ::
          [.ok sample_connection])).trace =
        T ++ [Event.stream_close [sample_connection].length,
          Event.cerr ("eghost server error:\n" ++ "bad method" ++ "...\n")] ∧
      T.count Event.async_accept = [sample_connection].length + 1 :=
  have h1 : ∀ c ∈ [sample_connection], c.failure = none := by decide
  ⟨h1, rfl,
    C1_session_error_ends_the_server sample_argv [sample_connection] sample_bad_connection
      [.ok sample_connection] 8080 "bad method" (by decide) (by rfl) h1 rfl⟩

set_option maxRecDepth 100000 in
/-- C1 as stated fails: when the first connection sends bytes that are not HTTP
and a second connection is waiting, the server issues one `async_accept` only,
never creates the second session, and `main` returns after printing the error. -/
theorem C1_read_error_escapes_to_main :
    (main sample_argv (.ok ())
      [.ok sample_bad_connection, .ok sample_connection]).trace =
      [Event.server_constructed "127.0.0.1" 8080, Event.async_accept,
        Event.session_created 0, Event.async_read 0, Event.stream_close 0,
        Event.cerr "eghost server error:\nbad method...\n"] ∧
    (main sample_argv (.ok ())
      [.ok sample_bad_connection, .ok sample_connection]).exit_status = some 0 := by
  decide

/-- C7: in every run of `main`, every session that is created is closed exactly
when its exchange ends.  The trace around `session_created id` is: actions of
other sessions, the server and `main` only; then the creation; then the whole
exchange of that connection and nothing else, which is the failed read alone,
or the read, the request log and the failed write, or the read, the request log,
the write and the response log; then `stream_close id` at once; and only then
the next action, which is the server's next `async_accept` after a completed
exchange or the error report of `main` after a failed one.  No action of the
session comes after its close. -/
theorem C7_every_session_is_closed (argv : List String) (bind : Except String Unit)
    (script : List AcceptResult) (i id : Nat)
    (h : (main argv bind script).trace[i]? = some (Event.session_created id)) :
    ∃ (conn : Connection) (before exchange after : List Event),
      script[id]? = some (.ok conn) ∧
      (main argv bind script).trace =
        before ++ Event.session_created id ::
          (exchange ++ Event.stream_close id :: after) ∧
      before.length = i ∧
      (∀ what, conn.read = .error what → exchange = [Event.async_read id]) ∧
      (∀ req what, conn.read = .ok req → conn.write = .error what →
        exchange =
          [Event.async_read id, Event.clog_request id req,
            Event.async_write id (prepared req.keep_alive conn.now)]) ∧
      (∀ req, conn.read = .ok req → conn.write = .ok →
        exchange =
          [Event.async_read id, Event.clog_request id req,
            Event.async_write id (prepared req.keep_alive conn.now),
            Event.clog_response id (prepared req.keep_alive conn.now)]) ∧
      (∀ e ∈ before, e.session ≠ some id) ∧
      (∀ e ∈ after, e.session ≠ some id) ∧
      (conn.failure = none → ∃ rest, after = Event.async_accept :: rest) ∧
      (∀ what, conn.failure = some what →
        after = [Event.cerr ("eghost server error:\n" ++ what ++ "..." ++ "\n")]) := by
  obtain ⟨conn, before, after, hc, htr, hlen, hb, ha, hnone, hsome⟩ :=
    main_trace_created argv bind script i id h
  obtain ⟨h1, h2, h3⟩ := exchange_trace_outcomes id conn
  exact ⟨conn, before, exchange_trace id conn, after, hc, htr, hlen, h1, h2, h3, hb, ha,
    hnone, hsome⟩

set_option maxRecDepth 100000 in
/-- C7 at a concrete run: a completed exchange, then a session (created at
position 9 of the trace) whose write fails; its stream is closed at position 13,
right after the failed write, and `main` reports the error after that. -/
theorem C7_every_session_is_closed_witness :
    (main sample_argv (.ok ())
      [.ok sample_connection, .ok sample_reset_connection]).trace[9]? =
      some (Event.session_created 1) ∧
    (main sample_argv (.ok ())
      [.ok sample_connection, .ok sample_reset_connection]).trace[12]? =
      some (Event.async_write 1 (prepared true sample_reset_connection.now)) ∧
    (main sample_argv (.ok ())
      [.ok sample_connection, .ok sample_reset_connection]).trace[13]? =
      some (Event.stream_close 1) ∧
    (main sample_argv (.ok ())
      [.ok sample_connection, .ok sample_reset_connection]).trace[14]? =
      some (Event.cerr "eghost server error:\nBroken pipe...\n") ∧
    ∃ (conn : Connection) (before exchange after : List Event),
      [AcceptResult.ok sample_connection, .ok sample_reset_connection][1]? =
        some (.ok conn) ∧
      (main sample_argv (.ok ())
        [.ok sample_connection, .ok sample_reset_connection]).trace =
        before ++ Event.session_created 1 ::
          (exchange ++ Event.stream_close 1 :: after) ∧
      before.length = 9 ∧
      (∀ what, conn.read = .error what → exchange = [Event.async_read 1]) ∧
      (∀ req what, conn.read = .ok req → conn.write = .error what →
        exchange =
          [Event.async_read 1, Event.clog_request 1 req,
            Event.async_write 1 (prepared req.keep_alive conn.now)]) ∧
      (∀ req, conn.read = .ok req → conn.write = .ok →
        exchange =
          [Event.async_read 1, Event.clog_request 1 req,
            Event.async_write 1 (prepared req.keep_alive conn.now),
            Event.clog_response 1 (prepared req.keep_alive conn.now)]) ∧
      (∀ e ∈ before, e.session ≠ some 1) ∧
      (∀ e ∈ after, e.session ≠ some 1) ∧
      (conn.failure = none → ∃ rest, after = Event.async_accept :: rest) ∧
      (∀ what, conn.failure = some what →
        after = [Event.cerr ("eghost server error:\n" ++ what ++ "..." ++ "\n")]) :=
  ⟨by decide, by decide, by decide, by decide,
    C7_every_session_is_closed sample_argv (.ok ())
      [.ok sample_connection, .ok sample_reset_connection] 9 1 (by decide)⟩
end eghost
